import Mathlib

/-!
Verification of the Scriptum v2.5 synchronization engine.

This file gives a shallow embedding, in Lean, of the pure computational core
of the subtitle synchronization engine (auto_sync.py, sync_subtitles.py,
src/scriptum_api/utils/sync_utils.py, src/scriptum_api/services/sync_service.py,
detect_framerate.py) and proves or refutes the specified properties.

Modelling conventions:
- Python floats are modelled as exact rationals (ℚ); Python ints as ℤ/ℕ.
- statistics.stdev returns the square root of the sample variance, which is
  irrational in general; wherever only threshold comparisons of the standard
  deviation matter we either keep the standard deviation abstract as a ℚ
  parameter or compare the sample variance against squared thresholds
  (legitimate because sqrt is strictly monotone on nonnegatives).
- External processes (ffprobe, ffmpeg extraction, Whisper transcription)
  are modelled as explicit environment parameters; fallible calls return
  Except values, mirroring raised exceptions.
-/

namespace Scriptum

/-- A transcribed speech segment: start time in seconds relative to the
sampled audio window (entry of the Whisper result's segment list). -/
structure Segment where
  start : ℚ
  deriving DecidableEq, Repr

/-- A subtitle entry's timing, in milliseconds since the start of the track
(pysrt ordinals); text content is irrelevant to the synchronization core. -/
structure SubEntry where
  startMs : ℤ
  endMs : ℤ
  deriving DecidableEq, Repr

/-- Start time of a subtitle entry in seconds:
sub.start.ordinal / 1000 in auto_sync.compute_offset_for_segment. -/
def subStartSeconds (e : SubEntry) : ℚ := (e.startMs : ℚ) / 1000

/-- Python int() applied to a float: truncation toward zero. -/
def pyTrunc (q : ℚ) : ℤ := if 0 ≤ q then ⌊q⌋ else -⌊-q⌋

/-- Python's % with a positive right operand (used as ms % frame_ms). -/
def ratMod (a b : ℚ) : ℚ := a - b * ⌊a / b⌋

/-- statistics.mean. -/
def pyMean (l : List ℚ) : ℚ := l.sum / l.length

/-- Sample variance: the square of statistics.stdev. -/
def pySampleVar (l : List ℚ) : ℚ :=
  ((l.map fun x => (x - pyMean l) ^ 2).sum) / ((l.length : ℚ) - 1)

/-- statistics.median: middle element of the sorted list for odd length,
mean of the two middle elements for even length. -/
def pyMedian (l : List ℚ) : ℚ :=
  let s := l.insertionSort (· ≤ ·)
  if l.length % 2 = 1 then s.getD (l.length / 2) 0
  else (s.getD (l.length / 2 - 1) 0 + s.getD (l.length / 2) 0) / 2

/-- The matched deltas of one sample point (auto_sync.compute_offset_for_segment,
lines 117-124): for each of the first 15 transcribed segments, the delta
against the first subtitle entry whose start lies strictly within 5 seconds
of the segment's absolute time, if any. -/
def point_deltas (subs : List SubEntry) (segments : List Segment) (t0 : ℚ) : List ℚ :=
  (segments.take 15).filterMap fun seg =>
    match subs.find? (fun sub => decide (|subStartSeconds sub - (t0 + seg.start)| < 5)) with
    | some sub => some ((t0 + seg.start) - subStartSeconds sub)
    | none => none

/-- auto_sync.compute_offset_for_segment (identical in sync_utils.py):
median of the matched deltas, or None when no segment matched. -/
def compute_offset_for_segment (subs : List SubEntry) (segments : List Segment)
    (t0 : ℚ) : Option ℚ :=
  let deltas := point_deltas subs segments t0
  if deltas.isEmpty then none else some (pyMedian deltas)

/-- The matched deltas of one sample point in the older
sync_subtitles.py compute_offset_for_segment (lines 68-78): same strict
5-second first-entry matching, but over the first 20 transcribed segments. -/
def point_deltas_v1 (subs : List SubEntry) (segments : List Segment) (t0 : ℚ) : List ℚ :=
  (segments.take 20).filterMap fun seg =>
    match subs.find? (fun sub => decide (|subStartSeconds sub - (t0 + seg.start)| < 5)) with
    | some sub => some ((t0 + seg.start) - subStartSeconds sub)
    | none => none

/-- sync_subtitles.py compute_offset_for_segment (lines 63-83): the
arithmetic mean (sum divided by count) of the matched deltas over the first
20 segments, or None when no segment matched. -/
def compute_offset_for_segment_v1 (subs : List SubEntry) (segments : List Segment)
    (t0 : ℚ) : Option ℚ :=
  let deltas := point_deltas_v1 subs segments t0
  if deltas.isEmpty then none else some (pyMean deltas)

/-- Sample planner (auto_sync.analyze_sync_quality lines 71-74):
step = duration/(numSamples+1), points step*i for i = 1..numSamples. -/
def sample_points (duration : ℚ) (numSamples : ℕ) : List ℚ :=
  (List.range numSamples).map fun i => (duration / ((numSamples : ℚ) + 1)) * ((i : ℚ) + 1)

/-- Quality labels of the aggregator (PERFEITO/BOM/ACEITAVEL/RUIM). -/
inductive Quality where
  | POOR
  | ACCEPTABLE
  | GOOD
  | PERFECT
  deriving DecidableEq, Repr

/-- Rank of a quality label under the ordering PERFECT > GOOD > ACCEPTABLE > POOR. -/
def qualityRank : Quality → ℕ
  | .POOR => 0
  | .ACCEPTABLE => 1
  | .GOOD => 2
  | .PERFECT => 3

/-- Quality classification from mean offset and standard deviation
(auto_sync.analyze_sync_quality lines 100-107). -/
def classify_quality (avg sd : ℚ) : Quality :=
  if |avg| < 0.3 ∧ sd < 0.5 then .PERFECT
  else if |avg| < 0.8 ∧ sd < 1.0 then .GOOD
  else if |avg| < 2.0 ∧ sd < 2.0 then .ACCEPTABLE
  else .POOR

/-- Quality classification taking the sample variance instead of the standard
deviation, with squared thresholds; equals classify_quality composed with sqrt,
since both sides of each comparison are nonnegative. -/
def classify_quality_var (avg varr : ℚ) : Quality :=
  if |avg| < 0.3 ∧ varr < 0.25 then .PERFECT
  else if |avg| < 0.8 ∧ varr < 1 then .GOOD
  else if |avg| < 2.0 ∧ varr < 4 then .ACCEPTABLE
  else .POOR

/-- auto_sync.analyze_sync_quality: transcription of the 45s window at each
sample point is provided by the environment tr, keyed by the int-truncated
start time passed to ffmpeg; returns (offsets, mean, sample variance, quality),
with the first three components None when fewer than 3 points matched
(code returns (None, None, None, "RUIM") in that case). -/
def analyze_sync_quality (tr : ℤ → List Segment) (subs : List SubEntry)
    (duration : ℚ) (numSamples : ℕ) :
    Option (List ℚ) × Option ℚ × Option ℚ × Quality :=
  let offsets := (sample_points duration numSamples).filterMap fun t =>
    compute_offset_for_segment subs (tr (pyTrunc t)) t
  if offsets.length < 3 then (none, none, none, .POOR)
  else
    let avg := pyMean offsets
    let varr := pySampleVar offsets
    (some offsets, some avg, some varr, classify_quality_var avg varr)

/-- Candidate framerates tested by both subtitle-framerate detectors. -/
def common_fps : List ℚ := [23.976, 24, 25, 29.97, 30, 50, 59.94, 60]

/-- Match count of one candidate framerate in sync_utils.detect_srt_framerate
(line 61): how many of the millisecond components are within 5 of a multiple
of the candidate's frame duration. -/
def fps_score (msValues : List ℤ) (fps : ℚ) : ℕ :=
  msValues.countP fun ms => decide (|ratMod (ms : ℚ) (1000 / fps)| < 5)

/-- sync_utils.detect_srt_framerate (lines 39-66): None when fewer than 100
entries; otherwise the best-scoring candidate over the millisecond components
of the first 200 start times, starting from the default (25.0, score 0) and
updating only on a strictly greater score. -/
def detect_srt_framerate (subs : List SubEntry) : Option ℚ :=
  if subs.length < 100 then none
  else
    let msValues := (subs.take 200).map fun s => s.startMs % 1000
    let best := common_fps.foldl
      (fun best fps =>
        let score := fps_score msValues fps
        if best.2 < score then (fps, score) else best)
      ((25 : ℚ), (0 : ℕ))
    some best.1

/-- Positive consecutive timestamp differences in detect_framerate.py
(lines 67-72), over the list of all timestamp values found in the file. -/
def srt_file_diffs (timestampsMs : List ℤ) : List ℤ :=
  (timestampsMs.zip timestampsMs.tail).filterMap fun p =>
    if p.2 - p.1 > 0 then some (p.2 - p.1) else none

/-- Match count of one candidate framerate in detect_framerate.py
(lines 94-104): diffs whose frame count is within 0.1 of an integer.
Python round is round-half-to-even while Lean's round is round-half-up, but
a half-integer frame count has error exactly 1/2 under both, never below
0.1, so the counted set is identical. -/
def file_fps_score (diffs : List ℤ) (fps : ℚ) : ℕ :=
  diffs.countP fun d =>
    let frames := (d : ℚ) / (1000 / fps)
    decide (|frames - (round frames : ℤ)| < 0.1)

/-- detect_framerate.py detect_srt_framerate (lines 44-115), over the list of
timestamp millisecond values extracted from the file (the regex extraction of
timestamps from the SRT text is abstracted as this input list): best candidate
by match fraction, returned only when that fraction exceeds 0.3. There is no
minimum on the number of entries beyond nonemptiness of the diffs. -/
def detect_srt_framerate_file (timestampsMs : List ℤ) : Option ℚ :=
  if timestampsMs.isEmpty then none
  else
    let diffs := srt_file_diffs timestampsMs
    if diffs.isEmpty then none
    else
      let best := common_fps.foldl
        (fun best fps =>
          let score : ℚ := (file_fps_score diffs fps : ℚ) / (diffs.length : ℚ)
          if best.2 < score then (some fps, score) else best)
        ((none : Option ℚ), (0 : ℚ))
      if best.2 > 0.3 then best.1 else none

/-- sync_utils.convert_framerate (lines 69-82): rescale every entry's start
and end ordinal by ratio = toFps/fromFps, truncating to int. -/
def convert_framerate (subs : List SubEntry) (fromFps toFps : ℚ) : List SubEntry :=
  let ratio := toFps / fromFps
  subs.map fun e =>
    { startMs := pyTrunc ((e.startMs : ℚ) * ratio)
      endMs := pyTrunc ((e.endMs : ℚ) * ratio) }

/-- Confidence from the standard deviation (sync_service.py lines 216-223 and
518-529; both occurrences are this same bucket function). -/
def confidence_from_stdev (sd : ℚ) : ℚ :=
  if sd < 0.5 then 0.95
  else if sd < 1.0 then 0.80
  else if sd < 2.0 then 0.60
  else 0.40

/-- Result record of SyncService.sync_subtitles, restricted to the fields the
claims are about. -/
structure SyncOutcome where
  success : Bool
  offset : Option ℚ
  confidence : Option ℚ
  validPoints : ℕ
  totalPoints : ℕ
  deriving DecidableEq, Repr

/-- SyncService.sync_subtitles, from the return of analyze_sync on
(lines 204-253): failure dictionary when offsets or mean are None, otherwise
success with the confidence computed from the standard deviation alone.
The analysis triple is (offsets, mean, stdev) as handed back by analyze_sync. -/
def build_sync_result (analysis : Option (List ℚ) × Option ℚ × Option ℚ) : SyncOutcome :=
  match analysis with
  | (some offs, some avg, some sd) =>
    { success := true
      offset := some avg
      confidence := some (confidence_from_stdev sd)
      validPoints := offs.length
      totalPoints := 5 }
  | _ =>
    { success := false, offset := none, confidence := none
      validPoints := 0, totalPoints := 5 }

/-! Python keyword-call semantics for the analyze_sync call in
SyncService.sync_subtitles_with_log. A Python call raises TypeError when a
keyword argument does not name a declared parameter of the callee (the callee
has no **kwargs catch-all). -/

/-- Parameter names of sync_utils.analyze_sync (line 253). -/
def analyze_sync_param_names : List String :=
  ["srt_path", "video_path", "video_duration", "num_samples", "language"]

/-- Keyword argument names passed by sync_subtitles_with_log (lines 461-468). -/
def with_log_call_kwargs : List String :=
  ["num_samples", "language", "gcs_video_path"]

/-- Number of positional arguments passed by that call. -/
def with_log_call_positional : ℕ := 3

/-- Whether a Python call with npos positional arguments and the given keyword
argument names binds without a TypeError against the given parameter list. -/
def python_kw_call_ok (params : List String) (npos : ℕ) (kwargs : List String) : Bool :=
  npos ≤ params.length
    && kwargs.all fun k => params.contains k && !((params.take npos).contains k)

/-- Environment of a sync_subtitles_with_log run: results of the external
steps that precede the analyze_sync call, plus what analyze_sync would return
were the call to bind. Errors model raised exceptions. -/
structure WithLogEnv where
  probe_fps : Except String ℚ
  subs : List SubEntry
  duration : Except String ℚ
  detect_language : Except String String
  analysis : Except String (Option (List ℚ) × Option ℚ × Option ℚ)

/-- Observable outcome of sync_subtitles_with_log: the success flag of the
returned dictionary, whether a corrected subtitle was written, and the log
lines tracked here only for the explicit completion marker. -/
structure WithLogResult where
  success : Bool
  outputWritten : Bool
  log : List String
  deriving DecidableEq, Repr

/-- SyncService.sync_subtitles_with_log (lines 293-583): the body runs inside
a try block whose except handler logs the completion marker and returns a
failure dictionary. The analyze_sync call at lines 461-468 is modelled by
first checking Python keyword binding; when it binds, the modelled body
continues with the environment's analysis result (early returning, without
the completion marker, when offsets or mean are None, as at lines 471-502). -/
def sync_subtitles_with_log (env : WithLogEnv) : WithLogResult :=
  let body : Except String (Bool × Bool × List String) := do
    let _vfps ← env.probe_fps
    let _sfps := detect_srt_framerate env.subs
    let _dur ← env.duration
    let _lang ← env.detect_language
    if python_kw_call_ok analyze_sync_param_names with_log_call_positional
        with_log_call_kwargs then
      let analysis ← env.analysis
      match analysis with
      | (some _offs, some _avg, _) => pure (true, true, ["Complete"])
      | _ => pure (false, false, [])
    else
      throw "TypeError: analyze_sync() got an unexpected keyword argument gcs_video_path"
  match body with
  | .ok (s, w, lg) => { success := s, outputWritten := w, log := lg }
  | .error _ => { success := false, outputWritten := false, log := ["Complete"] }

/-- Per-point external operations of sync_utils.analyze_sync, keyed by the
int-truncated window start time handed to ffmpeg: audio extraction
(extract_audio, lines 197-219, raising CalledProcessError on failure) and
transcription. -/
structure PointIO where
  extract : ℤ → Except String Unit
  transcribe : ℤ → Except String (List Segment)

/-- Per-point part of sync_utils.analyze_sync (lines 262-269): sequentially
extract, transcribe and compute each point's offset, keeping non-None offsets
in order. There is no try/except around the loop body, so the first raised
error propagates. -/
def collect_point_offsets (io : PointIO) (subs : List SubEntry) :
    List ℚ → Except String (List ℚ)
  | [] => .ok []
  | t :: rest => do
    let _ ← io.extract (pyTrunc t)
    let segs ← io.transcribe (pyTrunc t)
    let tailOffsets ← collect_point_offsets io subs rest
    match compute_offset_for_segment subs segs t with
    | some off => .ok (off :: tailOffsets)
    | none => .ok tailOffsets

/-- sync_utils.analyze_sync (lines 253-277): collect per-point offsets over
the planned sample points, then return (None, None, None) when fewer than 3
points matched, else (offsets, mean, sample variance); the code's third
component is statistics.stdev, the square root of the one returned here. -/
def analyze_syncE (io : PointIO) (subs : List SubEntry) (duration : ℚ)
    (numSamples : ℕ) :
    Except String (Option (List ℚ) × Option ℚ × Option ℚ) := do
  let offsets ← collect_point_offsets io subs (sample_points duration numSamples)
  if offsets.length < 3 then pure (none, none, none)
  else pure (some offsets, some (pyMean offsets), some (pySampleVar offsets))

/-- Terminal state of the auto_sync.main refinement loop: failed corresponds
to the sys.exit(1) on insufficient data (work file deleted, no output);
success carries the accumulated total correction, the number of analysis
passes run, and whether the loop exited through one of its two break
statements (converged) or by exhausting its iteration budget. -/
inductive LoopResult where
  | failed
  | success (totalCorrection : ℚ) (iterations : ℕ) (converged : Bool)
  deriving DecidableEq, Repr

/-- Number of analysis passes recorded in a loop result. -/
def loopIterations : LoopResult → ℕ
  | .failed => 0
  | .success _ i _ => i

/-- Corrected output produced by auto_sync.main: the total correction with
which the working copy is serialized, or none when the loop failed. -/
def loopOutput : LoopResult → Option ℚ
  | .failed => none
  | .success t _ _ => some t

/-- The while loop of auto_sync.main (lines 159-206). The working copy is a
shift of the original subtitles, so analysis is abstracted as a function A of
the accumulated total correction, returning the quadruple of
analyze_sync_quality on the shifted working copy. A (some, none, ...) shape
never arises from analyze_sync_quality (the code would raise formatting None
and abort without output, hence failed). -/
def run_refinement (A : ℚ → Option (List ℚ) × Option ℚ × Option ℚ × Quality) :
    ℕ → ℚ → ℕ → LoopResult
  | 0, total, iters => .success total iters false
  | fuel + 1, total, iters =>
    match A total with
    | (none, _, _, _) => .failed
    | (some _, none, _, _) => .failed
    | (some _, some avg, _, q) =>
      if q = .PERFECT then .success total (iters + 1) true
      else if |avg| ≤ 0.1 then .success total (iters + 1) true
      else run_refinement A fuel (total + avg) (iters + 1)

/-- auto_sync.main: 5 iterations maximum, starting from zero accumulated
correction. -/
def auto_sync_main (A : ℚ → Option (List ℚ) × Option ℚ × Option ℚ × Quality) :
    LoopResult :=
  run_refinement A 5 0 0

/-! Theorems. -/

/-- Justification of the squared thresholds in classify_quality_var: on a
nonnegative standard deviation s it agrees with classify_quality applied to
s, since each comparison squares both (nonnegative) sides. -/
theorem classify_quality_var_eq (m s : ℚ) (hs : 0 ≤ s) :
    classify_quality_var m (s ^ 2) = classify_quality m s := by
  have e1 : s ^ 2 < 0.25 ↔ s < 0.5 := by
    have h : (0.25 : ℚ) = 0.5 ^ 2 := by norm_num
    rw [h, pow_lt_pow_iff_left₀ hs (by norm_num) (by norm_num)]
  have e2 : s ^ 2 < 1 ↔ s < 1.0 := by
    have h : (1 : ℚ) = 1.0 ^ 2 := by norm_num
    rw [h, pow_lt_pow_iff_left₀ hs (by norm_num) (by norm_num)]
  have e3 : s ^ 2 < 4 ↔ s < 2.0 := by
    have h : (4 : ℚ) = 2.0 ^ 2 := by norm_num
    rw [h, pow_lt_pow_iff_left₀ hs (by norm_num) (by norm_num)]
  unfold classify_quality_var classify_quality
  simp only [e1, e2, e3]

/-- C8: the quality classification is monotonic: shrinking the mean magnitude
and the standard deviation never strictly worsens the label under
PERFECT > GOOD > ACCEPTABLE > POOR. -/
theorem classify_quality_monotone (m1 s1 m2 s2 : ℚ)
    (hm : |m2| ≤ |m1|) (hs : s2 ≤ s1) :
    qualityRank (classify_quality m1 s1) ≤ qualityRank (classify_quality m2 s2) := by
  have k1 : (|m1| < 0.3 ∧ s1 < 0.5) → |m2| < 0.3 ∧ s2 < 0.5 :=
    fun h => ⟨lt_of_le_of_lt hm h.1, lt_of_le_of_lt hs h.2⟩
  have k2 : (|m1| < 0.8 ∧ s1 < 1.0) → |m2| < 0.8 ∧ s2 < 1.0 :=
    fun h => ⟨lt_of_le_of_lt hm h.1, lt_of_le_of_lt hs h.2⟩
  have k3 : (|m1| < 2.0 ∧ s1 < 2.0) → |m2| < 2.0 ∧ s2 < 2.0 :=
    fun h => ⟨lt_of_le_of_lt hm h.1, lt_of_le_of_lt hs h.2⟩
  by_cases c1 : |m1| < 0.3 ∧ s1 < 0.5
  · simp [classify_quality, c1, k1 c1, qualityRank]
  · by_cases c2 : |m1| < 0.8 ∧ s1 < 1.0
    · by_cases e1 : |m2| < 0.3 ∧ s2 < 0.5 <;>
        simp [classify_quality, c1, c2, e1, k2 c2, qualityRank]
    · by_cases c3 : |m1| < 2.0 ∧ s1 < 2.0
      · by_cases e1 : |m2| < 0.3 ∧ s2 < 0.5
        · simp [classify_quality, c1, c2, c3, e1, qualityRank]
        · by_cases e2 : |m2| < 0.8 ∧ s2 < 1.0 <;>
            simp [classify_quality, c1, c2, c3, e1, e2, k3 c3, qualityRank]
      · calc qualityRank (classify_quality m1 s1)
            = 0 := by simp [classify_quality, c1, c2, c3, qualityRank]
          _ ≤ qualityRank (classify_quality m2 s2) := Nat.zero_le _

/-- Witness for C8 at a concrete downward move in both coordinates. -/
theorem classify_quality_monotone_witness :
    qualityRank (classify_quality 1 1) ≤ qualityRank (classify_quality 0 0) :=
  classify_quality_monotone 1 1 0 0 (by norm_num) (by norm_num)

/-- C9: the confidence is a function of the standard deviation alone, with
buckets 0.95 / 0.80 / 0.60 / 0.40 at breakpoints 0.5 / 1.0 / 2.0, and two
successful results with the same stdev and different means get the same
confidence. -/
theorem confidence_buckets (sd : ℚ) (offs1 offs2 : List ℚ) (m1 m2 : ℚ) :
    (sd < 0.5 → confidence_from_stdev sd = 0.95)
    ∧ (0.5 ≤ sd → sd < 1.0 → confidence_from_stdev sd = 0.80)
    ∧ (1.0 ≤ sd → sd < 2.0 → confidence_from_stdev sd = 0.60)
    ∧ (2.0 ≤ sd → confidence_from_stdev sd = 0.40)
    ∧ (build_sync_result (some offs1, some m1, some sd)).confidence
        = (build_sync_result (some offs2, some m2, some sd)).confidence
    ∧ (build_sync_result (some offs1, some m1, some sd)).confidence
        = some (confidence_from_stdev sd) := by
  refine ⟨fun h => ?_, fun h h2 => ?_, fun h h2 => ?_, fun h => ?_, rfl, rfl⟩
  · simp [confidence_from_stdev, h]
  · rw [confidence_from_stdev, if_neg (not_lt.mpr h), if_pos h2]
  · rw [confidence_from_stdev, if_neg (by linarith), if_neg (not_lt.mpr h), if_pos h2]
  · rw [confidence_from_stdev, if_neg (by linarith), if_neg (by linarith),
      if_neg (not_lt.mpr h)]

/-- Witness for C9 in the middle bucket. -/
theorem confidence_buckets_witness : confidence_from_stdev 0.7 = 0.80 :=
  (confidence_buckets 0.7 [] [] 0 1).2.1 (by norm_num) (by norm_num)

/-- C5: sync_subtitles_with_log fails on every input: the keyword argument
gcs_video_path does not bind against analyze_sync's parameters, the resulting
TypeError is caught by the surrounding handler, and the failure dictionary is
returned with no corrected subtitle written and the completion marker
appended to the log. -/
theorem with_log_always_fails (env : WithLogEnv) :
    (sync_subtitles_with_log env).success = false
    ∧ (sync_subtitles_with_log env).outputWritten = false
    ∧ "Complete" ∈ (sync_subtitles_with_log env).log := by
  have hcall : python_kw_call_ok analyze_sync_param_names with_log_call_positional
      with_log_call_kwargs = false := by decide
  obtain ⟨pf, subs, dur, dl, an⟩ := env
  rcases pf with e | v <;> rcases dur with e2 | d <;> rcases dl with e3 | l <;>
    simp [sync_subtitles_with_log, hcall, Bind.bind, Except.bind, throw, throwThe,
      MonadExceptOf.throw]

/-- Witness for C5 at a concrete environment in which every external step
succeeds and the analysis would have found a good offset. -/
theorem with_log_always_fails_witness :
    (sync_subtitles_with_log
      ⟨.ok 25, [], .ok 3600, .ok "en", .ok (some [0, 0, 0], some 0, some 0)⟩).success
      = false :=
  (with_log_always_fails _).1

/-- Subtitle track for the C6 counterexample: 100 entries whose start times
all have millisecond component 10, matching no candidate framerate. -/
def uniformMs10 : List SubEntry := List.replicate 100 ⟨10, 20⟩

/-- Millisecond components the detector derives from uniformMs10. -/
def uniformMs10_ms : List ℤ := (uniformMs10.take 200).map fun s => s.startMs % 1000

set_option maxRecDepth 12000 in
/-- Counterexample to C6: a 100-entry input on which every candidate's match
score is 0 — far below any 0.3 threshold — yet the detector returns the
numeric default 25 rather than None. -/
theorem detect_zero_score_returns_numeric :
    uniformMs10.length = 100
    ∧ common_fps.map (fps_score uniformMs10_ms) = [0, 0, 0, 0, 0, 0, 0, 0]
    ∧ detect_srt_framerate uniformMs10 = some 25 := by with_unfolding_all decide

set_option maxRecDepth 12000 in
/-- C6 amended: the API detector (sync_utils.detect_srt_framerate) returns
None exactly when the input has fewer than 100 entries and otherwise always
returns a numeric framerate, with no minimum match score; the standalone
detect_framerate.py detector applies its strict greater-than-0.3 fraction
threshold but no 100-entry minimum, returning a numeric framerate already for
four timestamps. -/
theorem detect_srt_framerate_amended (subs : List SubEntry) :
    (subs.length < 100 → detect_srt_framerate subs = none)
    ∧ (100 ≤ subs.length → (detect_srt_framerate subs).isSome = true)
    ∧ detect_srt_framerate_file [0, 40, 80, 120] = some 23.976
    ∧ ([(0 : ℤ), 40, 80, 120].length < 100) := by
  have hd : srt_file_diffs [0, 40, 80, 120] = [40, 40, 40] := by
    with_unfolding_all decide
  have h1 : file_fps_score [40, 40, 40] 23.976 = 3 := by with_unfolding_all decide
  have h2 : file_fps_score [40, 40, 40] 24 = 3 := by with_unfolding_all decide
  have h3 : file_fps_score [40, 40, 40] 25 = 3 := by with_unfolding_all decide
  have h4 : file_fps_score [40, 40, 40] 29.97 = 0 := by with_unfolding_all decide
  have h5 : file_fps_score [40, 40, 40] 30 = 0 := by with_unfolding_all decide
  have h6 : file_fps_score [40, 40, 40] 50 = 3 := by with_unfolding_all decide
  have h7 : file_fps_score [40, 40, 40] 59.94 = 0 := by with_unfolding_all decide
  have h8 : file_fps_score [40, 40, 40] 60 = 0 := by with_unfolding_all decide
  refine ⟨fun h => ?_, fun h => ?_, ?_, by decide⟩
  · simp [detect_srt_framerate, h]
  · simp [detect_srt_framerate, Nat.not_lt.mpr h]
  · unfold detect_srt_framerate_file
    simp only [hd, common_fps, List.foldl, h1, h2, h3, h4, h5, h6, h7, h8]
    norm_num

/-- Witness for C6 amended on a short input. -/
theorem detect_srt_framerate_amended_witness :
    detect_srt_framerate (List.replicate 5 ⟨0, 0⟩) = none :=
  (detect_srt_framerate_amended _).1 (by decide)

/-- Counterexample to C7: converting the one-entry track at 7 ms from 60 fps
to 24 fps and back yields 5 ms, deviating by 2 ms from the original — more
than the claimed 1 ms — for a pair drawn from the candidate framerate set. -/
theorem convert_roundtrip_cex :
    (60 : ℚ) ∈ common_fps ∧ (24 : ℚ) ∈ common_fps
    ∧ convert_framerate (convert_framerate [⟨7, 7⟩] 60 24) 24 60 = [⟨5, 5⟩]
    ∧ ¬((7 : ℤ) - 5 ≤ 1) := by with_unfolding_all decide

/-- C4 amended: the auto_sync.py/sync_utils.py offset estimator considers
only the first 15 transcribed segments, records a delta for a segment
exactly when some subtitle entry's start lies strictly within 5 seconds of
the segment's absolute time (value absoluteTime minus the start of the
first such entry), and returns the median of the recorded deltas, with a
zero-match point yielding None, never a default of 0. The sync_subtitles.py
variant cited by the claim instead considers the first 20 segments and
returns the arithmetic mean of its recorded deltas (still None on zero
matches). -/
theorem offset_estimator_point_spec (subs : List SubEntry)
    (segments : List Segment) (t0 : ℚ) :
    compute_offset_for_segment subs segments t0
      = compute_offset_for_segment subs (segments.take 15) t0
    ∧ (compute_offset_for_segment subs segments t0 = none
        ↔ point_deltas subs segments t0 = [])
    ∧ (point_deltas subs segments t0 ≠ [] →
        compute_offset_for_segment subs segments t0
          = some (pyMedian (point_deltas subs segments t0)))
    ∧ (point_deltas subs segments t0 ≠ []
        ↔ ∃ seg ∈ segments.take 15, ∃ sub ∈ subs,
            |subStartSeconds sub - (t0 + seg.start)| < 5)
    ∧ (∀ d ∈ point_deltas subs segments t0,
        ∃ seg ∈ segments.take 15, ∃ sub ∈ subs,
          |subStartSeconds sub - (t0 + seg.start)| < 5
          ∧ d = (t0 + seg.start) - subStartSeconds sub)
    ∧ compute_offset_for_segment_v1 subs segments t0
      = compute_offset_for_segment_v1 subs (segments.take 20) t0
    ∧ (compute_offset_for_segment_v1 subs segments t0 = none
        ↔ point_deltas_v1 subs segments t0 = [])
    ∧ (point_deltas_v1 subs segments t0 ≠ [] →
        compute_offset_for_segment_v1 subs segments t0
          = some (pyMean (point_deltas_v1 subs segments t0))) := by
  refine ⟨?_, ?_, ?_, ?_, ?_, ?_, ?_, ?_⟩
  · simp [compute_offset_for_segment, point_deltas, List.take_take]
  · constructor
    · intro h
      by_contra hne
      simp only [compute_offset_for_segment] at h
      rw [if_neg (by simpa [List.isEmpty_iff] using hne)] at h
      exact Option.some_ne_none _ h
    · intro h
      simp [compute_offset_for_segment, h]
  · intro h
    simp only [compute_offset_for_segment]
    rw [if_neg (by simpa [List.isEmpty_iff] using h)]
  · unfold point_deltas
    rw [Ne, List.filterMap_eq_nil_iff]
    push_neg
    constructor
    · rintro ⟨seg, hseg, hne⟩
      refine ⟨seg, hseg, ?_⟩
      rcases hfind : subs.find? (fun sub =>
          decide (|subStartSeconds sub - (t0 + seg.start)| < 5)) with _ | sub
      · exact absurd (by rw [hfind]) hne
      · have hp := List.find?_some hfind
        simp only [decide_eq_true_eq] at hp
        exact ⟨sub, List.mem_of_find?_eq_some hfind, hp⟩
    · rintro ⟨seg, hseg, sub, hsub, hlt⟩
      refine ⟨seg, hseg, ?_⟩
      have hsome : (subs.find? (fun sub =>
          decide (|subStartSeconds sub - (t0 + seg.start)| < 5))).isSome :=
        List.find?_isSome.mpr ⟨sub, hsub, decide_eq_true hlt⟩
      rcases hfind : subs.find? (fun sub =>
          decide (|subStartSeconds sub - (t0 + seg.start)| < 5)) with _ | sub2
      · rw [hfind] at hsome
        simp at hsome
      · simp
  · intro d hd
    unfold point_deltas at hd
    rw [List.mem_filterMap] at hd
    obtain ⟨seg, hseg, hval⟩ := hd
    refine ⟨seg, hseg, ?_⟩
    rcases hfind : subs.find? (fun sub =>
        decide (|subStartSeconds sub - (t0 + seg.start)| < 5)) with _ | sub
    · rw [hfind] at hval
      exact absurd hval (by simp)
    · rw [hfind] at hval
      simp only [Option.some_inj] at hval
      have hp := List.find?_some hfind
      simp only [decide_eq_true_eq] at hp
      exact ⟨sub, List.mem_of_find?_eq_some hfind, hp, hval.symm⟩
  · simp [compute_offset_for_segment_v1, point_deltas_v1, List.take_take]
  · constructor
    · intro h
      by_contra hne
      simp only [compute_offset_for_segment_v1] at h
      rw [if_neg (by simpa [List.isEmpty_iff] using hne)] at h
      exact Option.some_ne_none _ h
    · intro h
      simp [compute_offset_for_segment_v1, h]
  · intro h
    simp only [compute_offset_for_segment_v1]
    rw [if_neg (by simpa [List.isEmpty_iff] using h)]

/-- Witness for C4 amended: a two-segment point where the second segment
alone matches an entry, giving a recorded delta of 2 and median 2. -/
theorem offset_estimator_point_spec_witness :
    compute_offset_for_segment [⟨100000, 101000⟩] [⟨50⟩, ⟨2⟩] 100
      = some (pyMedian (point_deltas [⟨100000, 101000⟩] [⟨50⟩, ⟨2⟩] 100)) :=
  (offset_estimator_point_spec [⟨100000, 101000⟩] [⟨50⟩, ⟨2⟩] 100).2.2.1
    (by with_unfolding_all decide)

/-- Subtitle track for the C4 counterexample: entries at 100 s, 110 s and
117 s. -/
def subsA : List SubEntry :=
  [⟨100000, 101000⟩, ⟨110000, 111000⟩, ⟨117000, 118000⟩]

/-- Segments for the C4 counterexample: recorded deltas 0, 0 and 3, whose
mean (1) differs from their median (0). -/
def segsA : List Segment := [⟨0⟩, ⟨10⟩, ⟨20⟩]

/-- Sixteen segments of which only the sixteenth matches the single
subtitle entry at 100 s. -/
def segs16 : List Segment := List.replicate 15 ⟨50⟩ ++ [⟨99⟩]

/-- Counterexample to C4: the estimator cited at sync_subtitles.py:63-83
returns the mean, not the median, of the recorded deltas — on deltas
0, 0, 3 it returns 1 while their median is 0 — and it consults a sixteenth
segment, returning an offset where the claimed first-15 rule yields no
deltas at all. -/
theorem offset_estimator_v1_cex :
    point_deltas_v1 subsA segsA 100 = [0, 0, 3]
    ∧ compute_offset_for_segment_v1 subsA segsA 100 = some 1
    ∧ pyMedian (point_deltas_v1 subsA segsA 100) = 0
    ∧ ¬((1 : ℚ) = 0)
    ∧ compute_offset_for_segment_v1 [⟨100000, 101000⟩] segs16 0 = some (-1)
    ∧ compute_offset_for_segment [⟨100000, 101000⟩] segs16 0 = none := by
  with_unfolding_all decide

/-- Iteration count of the refinement loop is bounded by the starting count
plus the fuel. -/
theorem loopIterations_run_refinement
    (A : ℚ → Option (List ℚ) × Option ℚ × Option ℚ × Quality) :
    ∀ (fuel : ℕ) (total : ℚ) (iters : ℕ),
      loopIterations (run_refinement A fuel total iters) ≤ iters + fuel := by
  intro fuel
  induction fuel with
  | zero => intro total iters; simp [run_refinement, loopIterations]
  | succ n ih =>
    intro total iters
    rcases hAt : A total with ⟨o, m, v, q⟩
    rcases o with _ | offs
    · simp [run_refinement, hAt, loopIterations]
    · rcases m with _ | avg
      · simp [run_refinement, hAt, loopIterations]
      · by_cases hq : q = .PERFECT
        · simp only [run_refinement, hAt, if_pos hq, loopIterations]
          omega
        · by_cases hs : |avg| ≤ 0.1
          · simp only [run_refinement, hAt, if_neg hq, if_pos hs, loopIterations]
            omega
          · have hstep : run_refinement A (n + 1) total iters
                = run_refinement A n (total + avg) (iters + 1) := by
              simp only [run_refinement, hAt]
              rw [if_neg hq, if_neg hs]
            rw [hstep]
            calc loopIterations (run_refinement A n (total + avg) (iters + 1))
                ≤ (iters + 1) + n := ih (total + avg) (iters + 1)
              _ ≤ iters + (n + 1) := by omega

/-- C1: an analysis pass whose quality is PERFECT or whose mean satisfies
the negligible-offset test terminates the loop successfully with the total
correction unchanged (no shift applied in that pass); any other pass with
iterations remaining applies the mean as a shift (accumulated into the
total) and re-enters analysis; and a run never exceeds the default budget
of 5 analysis passes. -/
theorem refinement_pass_behavior
    (A : ℚ → Option (List ℚ) × Option ℚ × Option ℚ × Quality)
    (fuel iters : ℕ) (total : ℚ) (offs : List ℚ) (avg : ℚ) (v : Option ℚ)
    (q : Quality) (hA : A total = (some offs, some avg, v, q)) :
    ((q = .PERFECT ∨ |avg| ≤ 0.1) →
        run_refinement A (fuel + 1) total iters = .success total (iters + 1) true)
    ∧ (q ≠ .PERFECT → ¬(|avg| ≤ 0.1) →
        run_refinement A (fuel + 1) total iters
          = run_refinement A fuel (total + avg) (iters + 1))
    ∧ loopIterations (auto_sync_main A) ≤ 5 := by
  refine ⟨?_, ?_, ?_⟩
  · intro hterm
    simp only [run_refinement, hA]
    rcases hterm with hq | hs
    · rw [if_pos hq]
    · by_cases hq : q = .PERFECT
      · rw [if_pos hq]
      · rw [if_neg hq, if_pos hs]
  · intro hq hs
    simp only [run_refinement, hA]
    rw [if_neg hq, if_neg hs]
  · exact loopIterations_run_refinement A 5 0 0

/-- Analyzer used by the C1 witness: always reports a PERFECT pass. -/
def perfectAnalyzer : ℚ → Option (List ℚ) × Option ℚ × Option ℚ × Quality :=
  fun _ => (some [0, 0, 0], some 0, some 0, .PERFECT)

/-- Witness for C1: under an always-PERFECT analyzer the loop converges in
one pass with no correction applied. -/
theorem refinement_pass_behavior_witness :
    run_refinement perfectAnalyzer (4 + 1) 0 0 = .success 0 (0 + 1) true :=
  (refinement_pass_behavior perfectAnalyzer 4 0 0 [0, 0, 0] 0 (some 0)
    .PERFECT rfl).1 (Or.inl rfl)

/-- C3: a pass in which fewer than 3 sample points matched makes
analyze_sync_quality return the quadruple with no numeric components, and
the refinement loop seeing a None offsets component terminates in the failed
state with no corrected output. -/
theorem insufficient_data_fails (tr : ℤ → List Segment) (subs : List SubEntry)
    (duration : ℚ) (n : ℕ)
    (A : ℚ → Option (List ℚ) × Option ℚ × Option ℚ × Quality)
    (total : ℚ) (fuel iters : ℕ)
    (hfew : ((sample_points duration n).filterMap fun t =>
        compute_offset_for_segment subs (tr (pyTrunc t)) t).length < 3)
    (hnone : (A total).1 = none) :
    analyze_sync_quality tr subs duration n = (none, none, none, .POOR)
    ∧ run_refinement A (fuel + 1) total iters = .failed
    ∧ loopOutput (run_refinement A (fuel + 1) total iters) = none := by
  have hloop : run_refinement A (fuel + 1) total iters = .failed := by
    simp only [run_refinement]
    rcases hAt : A total with ⟨o, m, v, q⟩
    rw [hAt] at hnone
    simp only at hnone
    subst hnone
    rfl
  refine ⟨?_, hloop, by rw [hloop]; rfl⟩
  simp only [analyze_sync_quality]
  rw [if_pos hfew]

/-- Environment for the C3 witness: transcription yields no segments, so no
point matches. -/
def silentTr : ℤ → List Segment := fun _ => []

/-- Analyzer for the C3 witness that reports insufficient data. -/
def insufficientAnalyzer : ℚ → Option (List ℚ) × Option ℚ × Option ℚ × Quality :=
  fun _ => (none, none, none, .POOR)

/-- Witness for C3 on concrete inputs. -/
theorem insufficient_data_fails_witness :
    analyze_sync_quality silentTr [] 3600 5 = (none, none, none, .POOR)
    ∧ run_refinement insufficientAnalyzer (4 + 1) 0 0 = .failed :=
  ⟨(insufficient_data_fails silentTr [] 3600 5 insufficientAnalyzer 0 4 0
      (by with_unfolding_all decide) rfl).1,
   (insufficient_data_fails silentTr [] 3600 5 insufficientAnalyzer 0 4 0
      (by with_unfolding_all decide) rfl).2.1⟩

/-- Subtitle track for the C2 examples: one entry at each default sample
point of a 3600 s video, so every transcribed point matches with delta 0. -/
def sample_subs : List SubEntry :=
  [⟨600000, 602000⟩, ⟨1200000, 1202000⟩, ⟨1800000, 1802000⟩,
   ⟨2400000, 2402000⟩, ⟨3000000, 3002000⟩]

/-- Per-point environment whose operations always succeed. -/
def ok_io : PointIO :=
  { extract := fun _ => .ok ()
    transcribe := fun _ => .ok [⟨0⟩] }

/-- Per-point environment whose audio extraction fails at the first sample
point (600 s) and succeeds everywhere else. -/
def failing_io : PointIO :=
  { extract := fun t =>
      if t = 600 then .error "CalledProcessError: ffmpeg" else .ok ()
    transcribe := fun _ => .ok [⟨0⟩] }

/-- Per-point environment whose transcription fails at the third sample
point (1800 s) and succeeds everywhere else. -/
def mid_fail_io : PointIO :=
  { extract := fun _ => .ok ()
    transcribe := fun t =>
      if t = 1800 then .error "RuntimeError: whisper" else .ok [⟨0⟩] }

set_option maxRecDepth 12000 in
/-- Counterexample to C2: with an extraction failure at one sample point,
analyze_sync aborts with that error instead of dropping the point and
continuing — even though the same run with extraction working returns a
successful report from all five points. -/
theorem point_error_aborts_analysis :
    analyze_syncE failing_io sample_subs 3600 5
      = .error "CalledProcessError: ffmpeg"
    ∧ analyze_syncE ok_io sample_subs 3600 5
      = .ok (some [0, 0, 0, 0, 0], some 0, some 0) :=
  ⟨by with_unfolding_all rfl, by with_unfolding_all rfl⟩

/-- Collection of per-point offsets returns a value exactly when every
point's extraction and transcription succeed. -/
theorem collect_ok_iff (io : PointIO) (subs : List SubEntry) :
    ∀ pts : List ℚ,
      (∃ offs, collect_point_offsets io subs pts = .ok offs)
      ↔ ∀ u ∈ pts, (∃ a, io.extract (pyTrunc u) = .ok a)
          ∧ ∃ segs, io.transcribe (pyTrunc u) = .ok segs := by
  intro pts
  induction pts with
  | nil =>
    constructor
    · intro _ u hu
      simp at hu
    · intro _
      exact ⟨[], rfl⟩
  | cons u us ih =>
    constructor
    · rintro ⟨offs, hoffs⟩
      rcases hext : io.extract (pyTrunc u) with e | a
      · simp [collect_point_offsets, hext, Bind.bind, Except.bind] at hoffs
      · rcases htr : io.transcribe (pyTrunc u) with e | segs
        · simp [collect_point_offsets, hext, htr, Bind.bind, Except.bind] at hoffs
        · rcases hc : collect_point_offsets io subs us with e | tail
          · simp [collect_point_offsets, hext, htr, hc, Bind.bind,
              Except.bind] at hoffs
          · intro v hv
            rcases List.mem_cons.mp hv with rfl | hv2
            · exact ⟨⟨a, hext⟩, segs, htr⟩
            · exact (ih.mp ⟨tail, hc⟩) v hv2
    · intro h
      obtain ⟨⟨a, ha⟩, segs, hs⟩ := h u (List.mem_cons_self u us)
      obtain ⟨tail, htail⟩ := ih.mpr fun v hv => h v (List.mem_cons_of_mem u hv)
      rcases hcase : compute_offset_for_segment subs segs u with _ | off
      · exact ⟨tail, by
          simp [collect_point_offsets, ha, hs, htail, hcase, Bind.bind, Except.bind]⟩
      · exact ⟨off :: tail, by
          simp [collect_point_offsets, ha, hs, htail, hcase, Bind.bind, Except.bind]⟩

/-- The first failing operation's error propagates out of the per-point
collection, wherever in the point list the failure occurs. -/
theorem collect_error_mid (io : PointIO) (subs : List SubEntry) (e : String) :
    ∀ (pre : List ℚ) (t : ℚ) (rest : List ℚ),
      (∀ u ∈ pre, (∃ a, io.extract (pyTrunc u) = .ok a)
        ∧ ∃ segs, io.transcribe (pyTrunc u) = .ok segs) →
      (io.extract (pyTrunc t) = .error e
        ∨ ((∃ a, io.extract (pyTrunc t) = .ok a)
            ∧ io.transcribe (pyTrunc t) = .error e)) →
      collect_point_offsets io subs (pre ++ t :: rest) = .error e := by
  intro pre
  induction pre with
  | nil =>
    intro t rest _ hfail
    rcases hfail with he | ⟨⟨a, ha⟩, he⟩
    · simp [collect_point_offsets, he, Bind.bind, Except.bind]
    · simp [collect_point_offsets, ha, he, Bind.bind, Except.bind]
  | cons u us ih =>
    intro t rest hpre hfail
    obtain ⟨⟨a, ha⟩, segs, hs⟩ := hpre u (List.mem_cons_self u us)
    have htail := ih t rest (fun v hv => hpre v (List.mem_cons_of_mem u hv)) hfail
    simp [collect_point_offsets, ha, hs, htail, Bind.bind, Except.bind]

/-- C2 amended: per-point extraction and transcription errors are not
retried and are not contained: analyze_sync returns a value exactly when
every sample point's extraction and transcription succeed, and the first
error raised at any sample point (all earlier points succeeding)
propagates out of analyze_sync unchanged, aborting the whole call; only a
point with zero matched deltas is silently dropped. -/
theorem point_errors_propagate (io : PointIO) (subs : List SubEntry)
    (duration : ℚ) (n : ℕ) (pre : List ℚ) (t : ℚ) (rest : List ℚ) (e : String) :
    ((∃ r, analyze_syncE io subs duration n = .ok r)
      ↔ ∀ u ∈ sample_points duration n,
          (∃ a, io.extract (pyTrunc u) = .ok a)
          ∧ ∃ segs, io.transcribe (pyTrunc u) = .ok segs)
    ∧ (sample_points duration n = pre ++ t :: rest →
        (∀ u ∈ pre, (∃ a, io.extract (pyTrunc u) = .ok a)
          ∧ ∃ segs, io.transcribe (pyTrunc u) = .ok segs) →
        io.extract (pyTrunc t) = .error e →
        analyze_syncE io subs duration n = .error e)
    ∧ (sample_points duration n = pre ++ t :: rest →
        (∀ u ∈ pre, (∃ a, io.extract (pyTrunc u) = .ok a)
          ∧ ∃ segs, io.transcribe (pyTrunc u) = .ok segs) →
        (∃ a, io.extract (pyTrunc t) = .ok a) →
        io.transcribe (pyTrunc t) = .error e →
        analyze_syncE io subs duration n = .error e) := by
  refine ⟨?_, ?_, ?_⟩
  · constructor
    · rintro ⟨r, hr⟩
      apply (collect_ok_iff io subs (sample_points duration n)).mp
      rcases hc : collect_point_offsets io subs (sample_points duration n)
        with e2 | offs
      · simp [analyze_syncE, hc, Bind.bind, Except.bind] at hr
      · exact ⟨offs, rfl⟩
    · intro h
      obtain ⟨offs, hoffs⟩ := (collect_ok_iff io subs _).mpr h
      by_cases hlen : offs.length < 3
      · exact ⟨(none, none, none), by
          simp [analyze_syncE, hoffs, hlen, Bind.bind, Except.bind, pure, Except.pure]⟩
      · exact ⟨(some offs, some (pyMean offs), some (pySampleVar offs)), by
          simp [analyze_syncE, hoffs, hlen, Bind.bind, Except.bind, pure, Except.pure]⟩
  · intro hpts hpre he
    have hc := collect_error_mid io subs e pre t rest hpre (Or.inl he)
    rw [← hpts] at hc
    simp [analyze_syncE, hc, Bind.bind, Except.bind]
  · intro hpts hpre hok he
    have hc := collect_error_mid io subs e pre t rest hpre (Or.inr ⟨hok, he⟩)
    rw [← hpts] at hc
    simp [analyze_syncE, hc, Bind.bind, Except.bind]

set_option maxRecDepth 12000 in
/-- Witness for C2 amended: a transcription failure at the third sample
point, the first two succeeding, propagates out of analyze_sync. -/
theorem point_errors_propagate_witness :
    analyze_syncE mid_fail_io sample_subs 3600 5
      = .error "RuntimeError: whisper" :=
  (point_errors_propagate mid_fail_io sample_subs 3600 5 [600, 1200] 1800
      [2400, 3000] "RuntimeError: whisper").2.2
    (by
      simp only [sample_points, List.range_succ, List.range_zero, List.map_append,
        List.map_cons, List.map_nil, List.nil_append, List.cons_append]
      norm_num)
    (by
      intro u hu
      fin_cases hu <;>
        exact ⟨⟨(), rfl⟩, ⟨[⟨0⟩], by with_unfolding_all rfl⟩⟩)
    ⟨(), rfl⟩
    (by with_unfolding_all rfl)

/-- Bound for one entry of a framerate round-trip: truncating rescale by b/a
and back by a/b loses at most a/b of the value, hence at most 3 integral
milliseconds when a/b is at most 2500/999 (the largest ratio in the
candidate set, 60/23.976). -/
theorem roundtrip_bounds (a b : ℚ) (ha : 0 < a) (hb : 0 < b)
    (hab : a ≤ 2500 / 999 * b) (m : ℤ) (hm : 0 ≤ m) :
    m - 3 ≤ pyTrunc ((pyTrunc ((m : ℚ) * (b / a)) : ℚ) * (a / b))
    ∧ pyTrunc ((pyTrunc ((m : ℚ) * (b / a)) : ℚ) * (a / b)) ≤ m := by
  have hr : (0 : ℚ) < b / a := div_pos hb ha
  have hr2 : (0 : ℚ) < a / b := div_pos ha hb
  have hm1nn : (0 : ℚ) ≤ (m : ℚ) * (b / a) :=
    mul_nonneg (by exact_mod_cast hm) (le_of_lt hr)
  have h1 : pyTrunc ((m : ℚ) * (b / a)) = ⌊(m : ℚ) * (b / a)⌋ := if_pos hm1nn
  set m1 : ℤ := ⌊(m : ℚ) * (b / a)⌋ with hm1
  have hm1le : (m1 : ℚ) ≤ (m : ℚ) * (b / a) := Int.floor_le _
  have hm1gt : (m : ℚ) * (b / a) - 1 < (m1 : ℚ) := Int.sub_one_lt_floor _
  have hm1nn2 : (0 : ℤ) ≤ m1 := Int.floor_nonneg.mpr hm1nn
  have hprod : (0 : ℚ) ≤ (m1 : ℚ) * (a / b) :=
    mul_nonneg (by exact_mod_cast hm1nn2) (le_of_lt hr2)
  have h2 : pyTrunc ((m1 : ℚ) * (a / b)) = ⌊(m1 : ℚ) * (a / b)⌋ := if_pos hprod
  have hcancel : (b / a) * (a / b) = 1 := by
    field_simp
  have hub : (m1 : ℚ) * (a / b) ≤ (m : ℚ) := by
    calc (m1 : ℚ) * (a / b) ≤ ((m : ℚ) * (b / a)) * (a / b) :=
          mul_le_mul_of_nonneg_right hm1le (le_of_lt hr2)
      _ = (m : ℚ) * ((b / a) * (a / b)) := by ring
      _ = (m : ℚ) := by rw [hcancel, mul_one]
  have hdivle : a / b ≤ 2500 / 999 := (div_le_iff₀ hb).mpr hab
  have hlb : (m : ℚ) - 2500 / 999 < (m1 : ℚ) * (a / b) := by
    have step : ((m : ℚ) * (b / a) - 1) * (a / b) < (m1 : ℚ) * (a / b) :=
      mul_lt_mul_of_pos_right hm1gt hr2
    have expand : ((m : ℚ) * (b / a) - 1) * (a / b) = (m : ℚ) - a / b := by
      field_simp
    rw [expand] at step
    linarith
  constructor
  · rw [h1, h2]
    have hfl : (m : ℚ) - 2500 / 999 - 1 < (⌊(m1 : ℚ) * (a / b)⌋ : ℚ) := by
      have := Int.sub_one_lt_floor ((m1 : ℚ) * (a / b))
      linarith
    have : ((m - 4 : ℤ) : ℚ) < (⌊(m1 : ℚ) * (a / b)⌋ : ℚ) := by
      push_cast
      linarith
    have hint : m - 4 < ⌊(m1 : ℚ) * (a / b)⌋ := by exact_mod_cast this
    omega
  · rw [h1, h2]
    calc ⌊(m1 : ℚ) * (a / b)⌋ ≤ ⌊(m : ℚ)⌋ := Int.floor_le_floor hub
      _ = m := Int.floor_intCast m

/-- C7 amended: for every pair of candidate framerates, the round-trip
conversion reproduces each nonnegative timestamp to within 3 ms — never
above the original and never more than 3 ms below it — but not within 1 ms
(see the counterexample at 60 and 24 fps). -/
theorem convert_roundtrip_within_3ms (a b : ℚ) (ha : a ∈ common_fps)
    (hb : b ∈ common_fps) (subs : List SubEntry)
    (hpos : ∀ e ∈ subs, 0 ≤ e.startMs ∧ 0 ≤ e.endMs) :
    List.Forall₂
      (fun orig rt =>
        orig.startMs - 3 ≤ rt.startMs ∧ rt.startMs ≤ orig.startMs
        ∧ orig.endMs - 3 ≤ rt.endMs ∧ rt.endMs ≤ orig.endMs)
      subs (convert_framerate (convert_framerate subs a b) b a) := by
  have hside : ∀ x ∈ common_fps, ∀ y ∈ common_fps, 0 < x ∧ x ≤ 2500 / 999 * y := by
    with_unfolding_all decide
  have hpa : 0 < a := (hside a ha b hb).1
  have hpb : 0 < b := (hside b hb a ha).1
  have hab : a ≤ 2500 / 999 * b := (hside a ha b hb).2
  simp only [convert_framerate, List.map_map]
  induction subs with
  | nil => exact List.Forall₂.nil
  | cons u us ih =>
    simp only [List.map_cons]
    refine List.Forall₂.cons ?_ (ih fun v hv => hpos v (List.mem_cons_of_mem u hv))
    obtain ⟨hu1, hu2⟩ := hpos u (List.mem_cons_self u us)
    simp only [Function.comp]
    exact ⟨(roundtrip_bounds a b hpa hpb hab u.startMs hu1).1,
      (roundtrip_bounds a b hpa hpb hab u.startMs hu1).2,
      (roundtrip_bounds a b hpa hpb hab u.endMs hu2).1,
      (roundtrip_bounds a b hpa hpb hab u.endMs hu2).2⟩

/-- Witness for C7 amended at 25 ↔ 24 fps on a one-entry track. -/
theorem convert_roundtrip_within_3ms_witness :
    List.Forall₂
      (fun (orig rt : SubEntry) =>
        orig.startMs - 3 ≤ rt.startMs ∧ rt.startMs ≤ orig.startMs
        ∧ orig.endMs - 3 ≤ rt.endMs ∧ rt.endMs ≤ orig.endMs)
      [⟨100, 200⟩]
      (convert_framerate (convert_framerate [⟨100, 200⟩] 25 24) 24 25) :=
  convert_roundtrip_within_3ms 25 24 (by with_unfolding_all decide)
    (by with_unfolding_all decide) [⟨100, 200⟩] (by decide)

/-! Order-statistics machinery for the median sensitivity bound (C10):
pointwise domination of lists is preserved by insertion sort, so replacing
one element x of a list by y ≥ x moves every order statistic up by at most
y - x, and hence moves the median by at most y - x. -/

/-- Pointwise domination is reflexive. -/
theorem pw_refl (l : List ℚ) : List.Forall₂ (· ≤ ·) l l :=
  List.forall₂_same.mpr fun _ _ => le_rfl

/-- Pointwise domination is transitive. -/
theorem pw_trans : ∀ {l1 l2 l3 : List ℚ},
    List.Forall₂ (· ≤ ·) l1 l2 → List.Forall₂ (· ≤ ·) l2 l3 →
    List.Forall₂ (· ≤ ·) l1 l3 := by
  intro l1 l2 l3 h12
  induction h12 generalizing l3 with
  | nil => intro h; exact h
  | cons hab htail ih =>
    intro h23
    cases h23 with
    | cons hbc htail2 => exact List.Forall₂.cons (le_trans hab hbc) (ih htail2)

/-- Inserting b above the head of the sorted list y :: u dominates y :: u
pointwise. -/
theorem pw_cons_orderedInsert : ∀ (u : List ℚ) (y b : ℚ),
    List.Sorted (· ≤ ·) (y :: u) → y ≤ b →
    List.Forall₂ (· ≤ ·) (y :: u) (List.orderedInsert (· ≤ ·) b u) := by
  intro u
  induction u with
  | nil => intro y b _ hyb; exact List.Forall₂.cons hyb List.Forall₂.nil
  | cons z w ih =>
    intro y b hsort hyb
    have hyz : y ≤ z := (List.sorted_cons.mp hsort).1 z (List.mem_cons_self z w)
    have hzw : List.Sorted (· ≤ ·) (z :: w) := (List.sorted_cons.mp hsort).2
    by_cases hbz : b ≤ z
    · simp only [List.orderedInsert, if_pos hbz]
      exact List.Forall₂.cons hyb (List.Forall₂.cons le_rfl (pw_refl w))
    · simp only [List.orderedInsert, if_neg hbz]
      exact List.Forall₂.cons hyz (ih z b hzw (le_of_not_le hbz))

/-- Inserting a below the head of the sorted list y :: u2 stays dominated by
y :: u2 when the list being inserted into is dominated by u2. -/
theorem pw_orderedInsert_cons : ∀ {u1 u2 : List ℚ},
    List.Forall₂ (· ≤ ·) u1 u2 → ∀ (a y : ℚ),
    List.Sorted (· ≤ ·) (y :: u2) → a ≤ y →
    List.Forall₂ (· ≤ ·) (List.orderedInsert (· ≤ ·) a u1) (y :: u2) := by
  intro u1 u2 h
  induction h with
  | nil =>
    intro a y _ hay
    exact List.Forall₂.cons hay List.Forall₂.nil
  | @cons p r q s hpr hqs ih =>
    intro a y hsort hay
    have hyr : y ≤ r := (List.sorted_cons.mp hsort).1 r (List.mem_cons_self r s)
    have hrs : List.Sorted (· ≤ ·) (r :: s) := (List.sorted_cons.mp hsort).2
    by_cases hap : a ≤ p
    · simp only [List.orderedInsert, if_pos hap]
      exact List.Forall₂.cons hay (List.Forall₂.cons hpr hqs)
    · simp only [List.orderedInsert, if_neg hap]
      refine List.Forall₂.cons (le_trans (le_of_not_le hap) hay) ?_
      exact ih a r hrs (le_trans hay hyr)

/-- Ordered insertion is monotone with respect to pointwise domination, for a
sorted dominating list. -/
theorem pw_orderedInsert_mono : ∀ {s1 s2 : List ℚ},
    List.Forall₂ (· ≤ ·) s1 s2 → ∀ (a b : ℚ),
    List.Sorted (· ≤ ·) s2 → a ≤ b →
    List.Forall₂ (· ≤ ·)
      (List.orderedInsert (· ≤ ·) a s1) (List.orderedInsert (· ≤ ·) b s2) := by
  intro s1 s2 h
  induction h with
  | nil =>
    intro a b _ hab
    exact List.Forall₂.cons hab List.Forall₂.nil
  | @cons x y u1 u2 hxy htail ih =>
    intro a b hsort hab
    have hsort2 : List.Sorted (· ≤ ·) u2 := (List.sorted_cons.mp hsort).2
    by_cases hax : a ≤ x
    · by_cases hby : b ≤ y
      · simp only [List.orderedInsert, if_pos hax, if_pos hby]
        exact List.Forall₂.cons hab (List.Forall₂.cons hxy htail)
      · simp only [List.orderedInsert, if_pos hax, if_neg hby]
        refine List.Forall₂.cons (le_trans hax hxy) ?_
        exact pw_trans (List.Forall₂.cons hxy htail)
          (pw_cons_orderedInsert u2 y b hsort (le_of_not_le hby))
    · by_cases hby : b ≤ y
      · simp only [List.orderedInsert, if_neg hax, if_pos hby]
        refine List.Forall₂.cons (le_trans (le_of_not_le hax) hab) ?_
        exact pw_orderedInsert_cons htail a y hsort (le_trans hab hby)
      · simp only [List.orderedInsert, if_neg hax, if_neg hby]
        exact List.Forall₂.cons hxy (ih a b hsort2 hab)

/-- Insertion sort is monotone with respect to pointwise domination. -/
theorem pw_insertionSort_mono : ∀ {l1 l2 : List ℚ},
    List.Forall₂ (· ≤ ·) l1 l2 →
    List.Forall₂ (· ≤ ·)
      (l1.insertionSort (· ≤ ·)) (l2.insertionSort (· ≤ ·)) := by
  intro l1 l2 h
  induction h with
  | nil => exact List.Forall₂.nil
  | @cons a b t1 t2 hab htail ih =>
    simp only [List.insertionSort]
    exact pw_orderedInsert_mono ih a b (List.sorted_insertionSort _ t2) hab


/-- Pointwise domination gives elementwise getD comparison. -/
theorem pw_getD : ∀ {l1 l2 : List ℚ}, List.Forall₂ (· ≤ ·) l1 l2 →
    ∀ i, i < l1.length → l1.getD i 0 ≤ l2.getD i 0 := by
  intro l1 l2 h
  induction h with
  | nil => intro i hi; simp at hi
  | @cons a b t1 t2 hab htail ih =>
    intro i hi
    cases i with
    | zero => simpa using hab
    | succ n =>
      simp only [List.getD_cons_succ]
      exact ih n (by simpa using hi)

/-- Adding a nonnegative constant dominates the original list pointwise. -/
theorem pw_map_add (l : List ℚ) (d : ℚ) (hd : 0 ≤ d) :
    List.Forall₂ (· ≤ ·) l (l.map (· + d)) := by
  induction l with
  | nil => exact List.Forall₂.nil
  | cons a t ih => exact List.Forall₂.cons (show a ≤ a + d by linarith) ih

/-- Replacing an element by a larger value dominates the original list. -/
theorem pw_set_ge : ∀ (l : List ℚ) (j : ℕ) (y : ℚ),
    l.getD j 0 ≤ y → j < l.length → List.Forall₂ (· ≤ ·) l (l.set j y) := by
  intro l
  induction l with
  | nil => intro j y _ hj; simp at hj
  | cons a t ih =>
    intro j y hx hj
    cases j with
    | zero =>
      simp only [List.set]
      exact List.Forall₂.cons (by simpa using hx) (pw_refl t)
    | succ n =>
      simp only [List.set]
      exact List.Forall₂.cons le_rfl
        (ih n y (by simpa using hx) (by simpa using hj))

/-- Replacing an element by y is dominated pointwise by shifting the whole
list up by y minus the replaced value. -/
theorem pw_set_le_map : ∀ (l : List ℚ) (j : ℕ) (y : ℚ),
    l.getD j 0 ≤ y → j < l.length →
    List.Forall₂ (· ≤ ·) (l.set j y) (l.map (· + (y - l.getD j 0))) := by
  intro l
  induction l with
  | nil => intro j y _ hj; simp at hj
  | cons a t ih =>
    intro j y hx hj
    cases j with
    | zero =>
      simp only [List.set, List.map, List.getD_cons_zero]
      exact List.Forall₂.cons (by linarith)
        (pw_map_add t (y - a) (by simpa using hx))
    | succ n =>
      simp only [List.set, List.map, List.getD_cons_succ]
      refine List.Forall₂.cons (by
        have : t.getD n 0 ≤ y := by simpa using hx
        linarith) ?_
      exact ih n y (by simpa using hx) (by simpa using hj)

/-- Sorting commutes with adding a constant. -/
theorem insertionSort_map_add (l : List ℚ) (d : ℚ) :
    (l.map (· + d)).insertionSort (· ≤ ·)
      = (l.insertionSort (· ≤ ·)).map (· + d) :=
  (List.map_insertionSort (· ≤ ·) (· ≤ ·) (· + d) l
    fun _ _ _ _ => (add_le_add_iff_right d).symm).symm

/-- Evaluating getD through a constant shift. -/
theorem getD_map_add (s : List ℚ) (d : ℚ) (i : ℕ) (hi : i < s.length) :
    (s.map (· + d)).getD i 0 = s.getD i 0 + d := by
  rw [List.getD_eq_getElem?_getD, List.getElem?_map,
    List.getD_eq_getElem?_getD, List.getElem?_eq_getElem hi]
  simp

/-- getD of a set list at the set position. -/
theorem getD_set_self : ∀ (l : List ℚ) (j : ℕ) (y : ℚ), j < l.length →
    (l.set j y).getD j 0 = y := by
  intro l
  induction l with
  | nil => intro j y hj; simp at hj
  | cons a t ih =>
    intro j y hj
    cases j with
    | zero => rfl
    | succ n =>
      simp only [List.set, List.getD_cons_succ]
      exact ih n y (by simpa using hj)

/-- Setting a position back to its own value is the identity. -/
theorem set_getD_self : ∀ (l : List ℚ) (j : ℕ), j < l.length →
    l.set j (l.getD j 0) = l := by
  intro l
  induction l with
  | nil => intro j hj; simp at hj
  | cons a t ih =>
    intro j hj
    cases j with
    | zero => rfl
    | succ n =>
      simp only [List.set, List.getD_cons_succ, List.cons.injEq, true_and]
      exact ih n (by simpa using hj)

/-- Median is monotone under pointwise domination of the sorted lists. -/
theorem median_mono_aux {l l2 : List ℚ} (hlen : l.length = l2.length)
    (h1 : 1 ≤ l.length)
    (hpw : List.Forall₂ (· ≤ ·)
      (l.insertionSort (· ≤ ·)) (l2.insertionSort (· ≤ ·))) :
    pyMedian l ≤ pyMedian l2 := by
  have hs1 : (l.insertionSort (· ≤ ·)).length = l.length :=
    List.length_insertionSort _ _
  have hk : l.length / 2 < l.length := Nat.div_lt_self (by omega) (by omega)
  have hk1 : l.length / 2 - 1 < l.length := by omega
  simp only [pyMedian, ← hlen]
  by_cases hpar : l.length % 2 = 1
  · rw [if_pos hpar, if_pos hpar]
    exact pw_getD hpw _ (by omega)
  · rw [if_neg hpar, if_neg hpar]
    have g1 := pw_getD hpw (l.length / 2 - 1) (by omega)
    have g2 := pw_getD hpw (l.length / 2) (by omega)
    linarith

/-- Median increases by at most d when the sorted list is dominated by the
d-shift of the original sorted list. -/
theorem median_upper_aux {l l2 : List ℚ} (d : ℚ) (hlen : l.length = l2.length)
    (h1 : 1 ≤ l.length)
    (hpw : List.Forall₂ (· ≤ ·) (l2.insertionSort (· ≤ ·))
      ((l.insertionSort (· ≤ ·)).map (· + d))) :
    pyMedian l2 ≤ pyMedian l + d := by
  have hs1 : (l.insertionSort (· ≤ ·)).length = l.length :=
    List.length_insertionSort _ _
  have hs2 : (l2.insertionSort (· ≤ ·)).length = l.length := by
    rw [List.length_insertionSort, hlen]
  have hk : l.length / 2 < l.length := Nat.div_lt_self (by omega) (by omega)
  have g2 := pw_getD hpw (l.length / 2) (by omega)
  rw [getD_map_add _ _ _ (by omega)] at g2
  simp only [pyMedian, ← hlen]
  by_cases hpar : l.length % 2 = 1
  · rw [if_pos hpar, if_pos hpar]
    exact g2
  · rw [if_neg hpar, if_neg hpar]
    have g1 := pw_getD hpw (l.length / 2 - 1) (by omega)
    rw [getD_map_add _ _ _ (by omega)] at g1
    linarith

/-- Replacing one element by a larger value moves the median up by at most
the difference. -/
theorem median_set_bounds (l : List ℚ) (j : ℕ) (y : ℚ) (hj : j < l.length)
    (h1 : 1 ≤ l.length) (hx : l.getD j 0 ≤ y) :
    pyMedian l ≤ pyMedian (l.set j y)
    ∧ pyMedian (l.set j y) ≤ pyMedian l + (y - l.getD j 0) := by
  have hlen : l.length = (l.set j y).length := (List.length_set l j y).symm
  have hd : 0 ≤ y - l.getD j 0 := by linarith
  have hlow : List.Forall₂ (· ≤ ·)
      (l.insertionSort (· ≤ ·)) ((l.set j y).insertionSort (· ≤ ·)) :=
    pw_insertionSort_mono (pw_set_ge l j y hx hj)
  have hup : List.Forall₂ (· ≤ ·) ((l.set j y).insertionSort (· ≤ ·))
      ((l.insertionSort (· ≤ ·)).map (· + (y - l.getD j 0))) := by
    have h := pw_insertionSort_mono (pw_set_le_map l j y hx hj)
    rwa [insertionSort_map_add] at h
  exact ⟨median_mono_aux hlen h1 hlow, median_upper_aux _ hlen h1 hup⟩

/-- C10 amended: replacing one of the matched deltas of a point with at
least 5 deltas by a value at distance outlierDistance from the original
changes the point's median offset by at most outlierDistance (not by less
than outlierDistance divided by the number of deltas, which fails; see the
counterexample). -/
theorem median_outlier_shift_le (l : List ℚ) (j : ℕ) (y : ℚ)
    (hj : j < l.length) (h5 : 5 ≤ l.length) :
    |pyMedian (l.set j y) - pyMedian l| ≤ |y - l.getD j 0| := by
  by_cases hxy : l.getD j 0 ≤ y
  · obtain ⟨h1, h2⟩ := median_set_bounds l j y hj (by omega) hxy
    rw [abs_of_nonneg (by linarith), abs_of_nonneg (by linarith)]
    linarith
  · push_neg at hxy
    have hy2 : (l.set j y).getD j 0 = y := getD_set_self l j y hj
    have hj2 : j < (l.set j y).length := by
      rw [List.length_set]; exact hj
    have hx2 : (l.set j y).getD j 0 ≤ l.getD j 0 := by
      rw [hy2]; exact le_of_lt hxy
    obtain ⟨h1, h2⟩ := median_set_bounds (l.set j y) j (l.getD j 0) hj2
      (by rw [List.length_set]; omega) hx2
    rw [List.set_set, set_getD_self l j hj] at h1 h2
    rw [hy2] at h2
    rw [abs_of_nonpos (by linarith), abs_of_neg (by linarith)]
    linarith

/-- Counterexample to C10: for the five deltas 0,1,2,3,4, replacing 0 by 4.5
(outlier distance 4.5) moves the median from 2 to 3 — a shift of 1, which is
not strictly less than 4.5/5. -/
theorem median_outlier_cex :
    ([0, 1, 2, 3, 4] : List ℚ).length = 5
    ∧ pyMedian [0, 1, 2, 3, 4] = 2
    ∧ pyMedian (([0, 1, 2, 3, 4] : List ℚ).set 0 (9 / 2)) = 3
    ∧ ¬(|pyMedian (([0, 1, 2, 3, 4] : List ℚ).set 0 (9 / 2))
          - pyMedian [0, 1, 2, 3, 4]|
        < |(9 / 2 : ℚ) - ([0, 1, 2, 3, 4] : List ℚ).getD 0 0| / 5) := by
  with_unfolding_all decide

/-- Witness for C10 amended at the counterexample's input. -/
theorem median_outlier_shift_le_witness :
    |pyMedian (([0, 1, 2, 3, 4] : List ℚ).set 0 (9 / 2))
        - pyMedian [0, 1, 2, 3, 4]|
      ≤ |(9 / 2 : ℚ) - ([0, 1, 2, 3, 4] : List ℚ).getD 0 0| :=
  median_outlier_shift_le [0, 1, 2, 3, 4] 0 (9 / 2) (by decide) (by decide)

end Scriptum
